import Mathlib

/-!
Verification of the motion-typing dual-dial client and its serial bridge.

The client page (Frame component) keeps, per dial, a mouse rotation and a
hardware-encoder rotation whose sum is the dial effective angle; the right
dial moves a selection cursor over the sentence word list (extending the
sentence past the end via a prediction request) and the left dial cycles the
selected word through a fetched variant list.  The bridge process parses
serial tick lines of the form E1:<int>,E2:<int> and broadcasts changed
counter pairs to open viewer connections.

Numbers are modelled exactly: rotations as rationals (the hardware gain
3.6 degrees per detent is 18/5) and encoder counters as integers.  JS array
reads and writes are modelled by jsGet / jsArraySetZ, which return no
element for an out-of-range read and append when writing at the index equal
to the length (writes past the end would create a sparse array; they are
unreachable while the cursor invariant holds and are modelled as no-ops).
Display-only state (debug fields) is omitted.
-/

namespace MotionTyping

/-- Degrees per encoder detent: the literal 3.6 of the source. -/
def detentGain : ℚ := 36 / 10

/-- JS array read `l[i]`: out-of-range (including negative) reads give no value. -/
def jsGet (l : List String) (i : ℤ) : Option String :=
  if 0 ≤ i then l.get? i.toNat else none

/-- JS array read defaulted to the empty string where the source would see undefined. -/
def jsGetD (l : List String) (i : ℤ) : String :=
  (jsGet l i).getD ""

/-- JS array write `l[i] = v` for a natural index: in-range writes replace,
a write at the length appends, further positions are left unmodelled (no-op). -/
def jsArraySet (l : List String) (i : ℕ) (v : String) : List String :=
  if i < l.length then l.set i v
  else if i = l.length then l ++ [v]
  else l

/-- JS array write at a possibly negative index: a negative index stores an
object property and leaves the array elements unchanged. -/
def jsArraySetZ (l : List String) (i : ℤ) (v : String) : List String :=
  if 0 ≤ i then jsArraySet l i.toNat v else l

/-- The two dials of the page: the left panel drives word variants and the
right panel drives the selection cursor. -/
inductive Dial
  | left
  | right
deriving DecidableEq

/-- The client state of the Frame component that the claims concern:
sentence word list, the two rotation contributions per dial, the selection
cursor, the right-dial consumed-angle baseline, the last seen encoder
counters, the variant cache and its fetched marker, and the in-flight
prediction flag. -/
structure FrameState where
  words : List String
  mouseRotation : ℚ
  encoderRotation : ℚ
  rightMouseRotation : ℚ
  rightEncoderRotation : ℚ
  selectedWordIndex : ℤ
  lastRightRotationRef : ℚ
  lastEncoder1 : ℤ
  lastEncoder2 : ℤ
  currentVariations : List String
  variationsFetchedForIndex : Option ℤ
  isPredicting : Bool
deriving DecidableEq

/-- Left-dial effective angle: mouse plus encoder contribution. -/
def rotation (s : FrameState) : ℚ :=
  s.mouseRotation + s.encoderRotation

/-- Right-dial effective angle: mouse plus encoder contribution. -/
def rightRotation (s : FrameState) : ℚ :=
  s.rightMouseRotation + s.rightEncoderRotation

/-- Mouse contribution of a dial. -/
def dialMouseRotation (s : FrameState) : Dial → ℚ
  | .left => s.mouseRotation
  | .right => s.rightMouseRotation

/-- Hardware (encoder) contribution of a dial. -/
def dialEncoderRotation (s : FrameState) : Dial → ℚ
  | .left => s.encoderRotation
  | .right => s.rightEncoderRotation

/-- Last recorded hardware counter of a dial (the delta baseline). -/
def dialLastCounter (s : FrameState) : Dial → ℤ
  | .left => s.lastEncoder1
  | .right => s.lastEncoder2

/-- Mouse-drag delta normalisation of the source: a raw angle difference is
folded into the interval from -180 to 180 before being accumulated. -/
def normalizeDelta (d : ℚ) : ℚ :=
  if 180 < d then d - 360 else if d < -180 then d + 360 else d

/-- Mouse-drag handling: add the normalised delta to the dial mouse contribution. -/
def applyMouseDelta (d : Dial) (s : FrameState) (raw : ℚ) : FrameState :=
  match d with
  | .left => { s with mouseRotation := s.mouseRotation + normalizeDelta raw }
  | .right => { s with rightMouseRotation := s.rightMouseRotation + normalizeDelta raw }

/-- Per-dial hardware tick handling of the ws.onmessage handler: an unchanged
counter is a no-op; a counter jump of more than 100 detents re-seats the
encoder contribution at the absolute position newCounter * 3.6; a small delta
is accumulated incrementally as delta * 3.6. -/
def applyHardwareTick (d : Dial) (s : FrameState) (c : ℤ) : FrameState :=
  match d with
  | .left =>
      if c = s.lastEncoder1 then s
      else
        let delta := c - s.lastEncoder1
        if 100 < |delta| then
          { s with encoderRotation := (c : ℚ) * detentGain, lastEncoder1 := c }
        else
          { s with encoderRotation := s.encoderRotation + (delta : ℚ) * detentGain,
                   lastEncoder1 := c }
  | .right =>
      if c = s.lastEncoder2 then s
      else
        let delta := c - s.lastEncoder2
        if 100 < |delta| then
          { s with rightEncoderRotation := (c : ℚ) * detentGain, lastEncoder2 := c }
        else
          { s with rightEncoderRotation := s.rightEncoderRotation + (delta : ℚ) * detentGain,
                   lastEncoder2 := c }

/-- Full encoder message outside the sync branch: encoder1 then encoder2 handled. -/
def encoderMessage (s : FrameState) (e1 e2 : ℤ) : FrameState :=
  applyHardwareTick .right (applyHardwareTick .left s e1) e2

/-- First message after a relay connection (needsSync branch): both encoder
contributions are re-seated at the absolute positions counter * 3.6 and both
delta baselines are recorded. -/
def resyncMessage (s : FrameState) (e1 e2 : ℤ) : FrameState :=
  { s with encoderRotation := (e1 : ℚ) * detentGain,
           rightEncoderRotation := (e2 : ℚ) * detentGain,
           lastEncoder1 := e1,
           lastEncoder2 := e2 }

/-- Provider request payload of the word-variations endpoint. -/
structure VariantRequest where
  word : String
  context : String
  position : ℤ
deriving DecidableEq

/-- Sentence context string: the word list joined with single spaces. -/
def joinWords (ws : List String) : String :=
  String.intercalate " " ws

/-- Right-dial navigation effect: the effective angle is compared against the
consumed baseline, whole 60-degree steps are turned into cursor movement
(clamped below at 0, set to the sentence length sentinel past the end) and
the baseline advances by exactly the consumed steps times 60. -/
def rightDialStep (s : FrameState) : FrameState :=
  let change := rightRotation s - s.lastRightRotationRef
  let steps := ⌊|change| / 60⌋
  if steps = 0 then s
  else
    let direction : ℤ := if 0 < change then 1 else -1
    let newIndex := s.selectedWordIndex + steps * direction
    { s with
        selectedWordIndex :=
          if newIndex < 0 then 0
          else if (s.words.length : ℤ) ≤ newIndex then (s.words.length : ℤ)
          else newIndex,
        lastRightRotationRef := s.lastRightRotationRef + (steps : ℚ) * 60 * direction }

/-- Left-dial effect: if variants were not yet fetched for the current cursor
a fetch request is issued and the state is untouched; otherwise the variant
at index floor of the absolute effective angle over 60, modulo the variant
count, is written into the sentence at the cursor (a no-op when unchanged). -/
def leftDialStep (s : FrameState) : FrameState × Option VariantRequest :=
  if s.variationsFetchedForIndex ≠ some s.selectedWordIndex then
    (s, some ⟨jsGetD s.words s.selectedWordIndex, joinWords s.words, s.selectedWordIndex⟩)
  else if s.currentVariations = [] then (s, none)
  else
    let idx := (⌊|rotation s| / 60⌋).toNat % s.currentVariations.length
    let v := s.currentVariations.getD idx ""
    if jsGet s.words s.selectedWordIndex = some v then (s, none)
    else ({ s with words := jsArraySetZ s.words s.selectedWordIndex v }, none)

/-- Cursor-change effect: the variant cache is reset to the single word at the
new cursor and the fetched marker is cleared. -/
def cursorChangeReset (s : FrameState) : FrameState :=
  { s with currentVariations := [jsGetD s.words s.selectedWordIndex],
           variationsFetchedForIndex := none }

/-- Resolution of a word-variations fetch issued at cursor fetchCursor for
originalWord: a non-empty result replaces the variant cache with the original
word followed by the provider results, and in every case the fetched marker
is set to the cursor captured when the fetch was issued. -/
def applyVariationsResponse (s : FrameState) (fetchCursor : ℤ) (originalWord : String)
    (variations : List String) : FrameState :=
  if variations = [] then { s with variationsFetchedForIndex := some fetchCursor }
  else { s with currentVariations := originalWord :: variations,
                variationsFetchedForIndex := some fetchCursor }

/-- Extension trigger effect: when the cursor sits at the sentence length and
no prediction is in flight, the in-flight flag is raised and one provider call
is issued whose context is the sentence followed by the end-of-sentence mask
token and whose position is the sentence length. -/
def extensionTrigger (s : FrameState) : FrameState × Option VariantRequest :=
  if (s.words.length : ℤ) ≤ s.selectedWordIndex ∧ s.isPredicting = false then
    ({ s with isPredicting := true },
     some ⟨"[PREDICT]", joinWords s.words ++ " [MASK]", (s.words.length : ℤ)⟩)
  else (s, none)

/-- Successful resolution of a prediction call: a non-empty result appends its
first variant to the sentence, installs the full result as the variant cache,
marks the old length as fetched and clears the in-flight flag; an empty result
only clears the flag. -/
def applyPredictSuccess (s : FrameState) (variations : List String) : FrameState :=
  match variations with
  | [] => { s with isPredicting := false }
  | v :: rest =>
      { s with words := s.words ++ [v],
               currentVariations := v :: rest,
               variationsFetchedForIndex := some (s.words.length : ℤ),
               isPredicting := false }

/-- Failed resolution of a prediction call (catch branch): the in-flight flag
is cleared and the cursor is moved back to the last valid word index. -/
def applyPredictFailure (s : FrameState) : FrameState :=
  { s with isPredicting := false,
           selectedWordIndex := (s.words.length : ℤ) - 1 }

/-- Angle-consumption rule of the right-dial effect in isolation: from the
consumed baseline and the new effective angle it yields the signed step count
and the advanced baseline, leaving any sub-60-degree remainder unconsumed. -/
def navConsume (last rot : ℚ) : ℤ × ℚ :=
  let change := rot - last
  let steps := ⌊|change| / 60⌋
  if steps = 0 then (0, last)
  else
    let direction : ℤ := if 0 < change then 1 else -1
    (steps * direction, last + (steps : ℚ) * 60 * direction)

/-- Running the consumption rule over a list of effective-angle changes,
starting from effective angle rot and baseline last; returns the cumulative
signed cursor movement and the final baseline. -/
def navRun : ℚ → ℚ → List ℚ → ℤ × ℚ
  | _, last, [] => (0, last)
  | rot, last, d :: ds =>
      let rot1 := rot + d
      let step := navConsume last rot1
      let restRun := navRun rot1 step.2 ds
      (step.1 + restRun.1, restRun.2)

/-- One atomic client event: the handlers and effect bodies of the component,
each running to completion in the single-threaded event model. -/
inductive InputEvent
  | mouseDelta (d : Dial) (raw : ℚ)
  | hardwareTick (e1 e2 : ℤ)
  | resyncMsg (e1 e2 : ℤ)
  | rightDial
  | leftDial
  | cursorReset
  | variationsResponse (fetchCursor : ℤ) (originalWord : String) (variations : List String)
  | extensionCheck
  | predictSuccess (variations : List String)
  | predictFailure

/-- State transition of one atomic client event (request outputs discarded). -/
def stepEvent (s : FrameState) : InputEvent → FrameState
  | .mouseDelta d raw => applyMouseDelta d s raw
  | .hardwareTick e1 e2 => encoderMessage s e1 e2
  | .resyncMsg e1 e2 => resyncMessage s e1 e2
  | .rightDial => rightDialStep s
  | .leftDial => (leftDialStep s).1
  | .cursorReset => cursorChangeReset s
  | .variationsResponse c w vs => applyVariationsResponse s c w vs
  | .extensionCheck => (extensionTrigger s).1
  | .predictSuccess vs => applyPredictSuccess s vs
  | .predictFailure => applyPredictFailure s

/-- Cursor invariant: the sentence is never empty and the selection cursor
lies between 0 and the sentence length inclusive. -/
def cursorInvariant (s : FrameState) : Prop :=
  s.words ≠ [] ∧ 0 ≤ s.selectedWordIndex ∧ s.selectedWordIndex ≤ (s.words.length : ℤ)

/-!
Serial bridge (ArduinoHandler): parsing of tick lines and the change-check
before broadcasting to viewer connections.
-/

/-- Whitespace recognised by the trim applied to an incoming serial line. -/
def isJsSpace (c : Char) : Bool :=
  c = ' ' || c = '\t' || c = '\n' || c = '\r' || c = '\x0b' || c = '\x0c'

/-- Trim of leading and trailing whitespace on the character list of a line. -/
def trimChars (cs : List Char) : List Char :=
  ((cs.dropWhile isJsSpace).reverse.dropWhile isJsSpace).reverse

/-- Greedy maximal run of decimal digits at the head of the input, together
with the rest. -/
def takeDigits : List Char → List Char × List Char
  | [] => ([], [])
  | c :: cs =>
      if c.isDigit then
        let rest := takeDigits cs
        (c :: rest.1, rest.2)
      else ([], c :: cs)

/-- Decimal value of a digit run, most significant first. -/
def digitsToNat (ds : List Char) : ℕ :=
  ds.foldl (fun acc c => acc * 10 + (c.toNat - 48)) 0

/-- Match of the regex fragment -?\d+ at the head of the input: an optional
minus sign followed by a non-empty greedy digit run. -/
def matchSignedInt (cs : List Char) : Option (ℤ × List Char) :=
  match cs with
  | '-' :: rest =>
      let d := takeDigits rest
      if d.1 = [] then none else some (-(digitsToNat d.1 : ℤ), d.2)
  | _ =>
      let d := takeDigits cs
      if d.1 = [] then none else some ((digitsToNat d.1 : ℤ), d.2)

/-- Match of a literal character sequence at the head of the input. -/
def stripLit : List Char → List Char → Option (List Char)
  | [], cs => some cs
  | _ :: _, [] => none
  | l :: ls, c :: cs => if c = l then stripLit ls cs else none

/-- Match of the full tick pattern E1:(-?\d+),E2:(-?\d+) at the head of the
input, yielding the two parsed counters. -/
def matchFrameAt (cs : List Char) : Option (ℤ × ℤ) := do
  let cs1 ← stripLit [ 'E', '1', ':' ] cs
  let (a, cs2) ← matchSignedInt cs1
  let cs3 ← stripLit [ ',', 'E', '2', ':' ] cs2
  let (b, _) ← matchSignedInt cs3
  pure (a, b)

/-- Unanchored regex search: the pattern is tried at each position from the
left and the first successful match wins, as in the source match call. -/
def scanFrame : List Char → Option (ℤ × ℤ)
  | [] => none
  | c :: cs =>
      match matchFrameAt (c :: cs) with
      | some r => some r
      | none => scanFrame cs

/-- Parse of a raw serial line into a counter pair: trim, then regex search. -/
def tickFrameMatch (line : String) : Option (ℤ × ℤ) :=
  scanFrame (trimChars line.data)

/-- Stored counter pair of the bridge (currentData). -/
structure BridgeState where
  encoder1 : ℤ
  encoder2 : ℤ
deriving DecidableEq

/-- Handling of one serial line by the parser data listener: an unparseable
line leaves the stored pair unchanged and broadcasts nothing; a parsed pair
equal to the stored pair broadcasts nothing; a changed pair is stored and
broadcast. -/
def handleSerialLine (s : BridgeState) (line : String) : BridgeState × Option (ℤ × ℤ) :=
  match tickFrameMatch line with
  | some (a, b) =>
      if s.encoder1 ≠ a ∨ s.encoder2 ≠ b then (⟨a, b⟩, some (a, b))
      else (s, none)
  | none => (s, none)

/-- Handling of a whole list of serial lines in order, collecting every
broadcast payload; a dropped line never stops the processing of later lines. -/
def processLines : BridgeState → List String → BridgeState × List (ℤ × ℤ)
  | s, [] => (s, [])
  | s, l :: ls =>
      let h := handleSerialLine s l
      let rest := processLines h.1 ls
      (rest.1,
       match h.2 with
       | some d => d :: rest.2
       | none => rest.2)

/-- One viewer connection of the relay, with its readyState open flag. -/
structure ViewerClient where
  isOpen : Bool
deriving DecidableEq

/-- Broadcast fan-out: the payload is delivered to exactly the clients whose
connection is open. -/
def broadcast (clients : List ViewerClient) (d : ℤ × ℤ) : List (ViewerClient × (ℤ × ℤ)) :=
  (clients.filter (fun c => c.isOpen)).map (fun c => (c, d))

/-!
Example states used by witnesses and counterexamples.
-/

/-- Example client state with distinct rotation contributions and counters. -/
def sTick : FrameState :=
  { words := ["hello"], mouseRotation := 1, encoderRotation := 2,
    rightMouseRotation := 3, rightEncoderRotation := 4, selectedWordIndex := 0,
    lastRightRotationRef := 0, lastEncoder1 := 5, lastEncoder2 := 6,
    currentVariations := ["hello"], variationsFetchedForIndex := none, isPredicting := false }

/-- Example client state for the extension round trip: a three-word sentence
with the cursor on the last word and nothing consumed yet. -/
def sExt0 : FrameState :=
  { words := ["word1", "word2", "word3"], mouseRotation := 0, encoderRotation := 0,
    rightMouseRotation := 0, rightEncoderRotation := 0, selectedWordIndex := 2,
    lastRightRotationRef := 0, lastEncoder1 := 0, lastEncoder2 := 0,
    currentVariations := ["word3"], variationsFetchedForIndex := none, isPredicting := false }

/-- State after a right-dial mouse rotation of plus 60 degrees on sExt0. -/
def sExt1 : FrameState := rightDialStep (applyMouseDelta Dial.right sExt0 60)

/-- Request issued by the extension trigger after the cursor reached the sentinel. -/
def sExtReq : Option VariantRequest := (extensionTrigger (cursorChangeReset sExt1)).2

/-- State with the prediction in flight. -/
def sExt2 : FrameState := (extensionTrigger (cursorChangeReset sExt1)).1

/-- State after the prediction resolved with the single variant word4. -/
def sExt3 : FrameState := applyPredictSuccess sExt2 ["word4"]

/-- Example client state in which the cursor has moved from 2 to 4 while a
variants fetch issued at cursor 2 is still in flight: the cursor-change reset
has already run for cursor 4. -/
def sStale : FrameState :=
  { words := ["We", "remain", "lingering", "this", "evening"],
    mouseRotation := 0, encoderRotation := 0, rightMouseRotation := 0,
    rightEncoderRotation := 0, selectedWordIndex := 4, lastRightRotationRef := 120,
    lastEncoder1 := 0, lastEncoder2 := 0, currentVariations := ["evening"],
    variationsFetchedForIndex := none, isPredicting := false }

/-- Example client state for variant cycling: cursor 0, fetched variant set
we, I, they, she, effective left angle 125 degrees. -/
def sVar : FrameState :=
  { words := ["we", "remain", "lingering"], mouseRotation := 125, encoderRotation := 0,
    rightMouseRotation := 0, rightEncoderRotation := 0, selectedWordIndex := 0,
    lastRightRotationRef := 0, lastEncoder1 := 0, lastEncoder2 := 0,
    currentVariations := ["we", "I", "they", "she"], variationsFetchedForIndex := some 0,
    isPredicting := false }

/-!
Helper lemmas.
-/

/-- A hardware tick never touches the sentence or the cursor. -/
theorem applyHardwareTick_words_cursor (d : Dial) (s : FrameState) (c : ℤ) :
    (applyHardwareTick d s c).words = s.words ∧
    (applyHardwareTick d s c).selectedWordIndex = s.selectedWordIndex := by
  cases d <;> · simp only [applyHardwareTick]; split_ifs <;> simp

/-- A JS array write never shortens the array. -/
theorem length_le_jsArraySetZ (l : List String) (i : ℤ) (v : String) :
    l.length ≤ (jsArraySetZ l i v).length := by
  unfold jsArraySetZ jsArraySet
  split_ifs <;> simp

/-!
C1: hardware tick handling.
-/

/-- C1: for every hardware tick update on a dial, an unchanged counter is a
no-op; otherwise with delta the counter difference, a jump of more than 100
detents re-seats the hardware contribution at the absolute position
newCounter * 3.6 degrees, and a small delta adds delta * 3.6 to the existing
contribution; the mouse contributions and the other dial's hardware state are
unchanged in every case. -/
theorem hardware_tick_cases (d : Dial) (s : FrameState) (c : ℤ) :
    (c = dialLastCounter s d → applyHardwareTick d s c = s) ∧
    (c ≠ dialLastCounter s d → 100 < |c - dialLastCounter s d| →
      dialEncoderRotation (applyHardwareTick d s c) d = (c : ℚ) * detentGain) ∧
    (c ≠ dialLastCounter s d → |c - dialLastCounter s d| ≤ 100 →
      dialEncoderRotation (applyHardwareTick d s c) d
        = dialEncoderRotation s d + ((c - dialLastCounter s d : ℤ) : ℚ) * detentGain) ∧
    (∀ d2, dialMouseRotation (applyHardwareTick d s c) d2 = dialMouseRotation s d2) ∧
    (∀ d2, d2 ≠ d →
      dialEncoderRotation (applyHardwareTick d s c) d2 = dialEncoderRotation s d2 ∧
      dialLastCounter (applyHardwareTick d s c) d2 = dialLastCounter s d2) := by
  cases d with
  | left =>
      refine ⟨fun h => ?_, fun h h2 => ?_, fun h h2 => ?_, fun d2 => ?_, fun d2 hd2 => ?_⟩
      · simp only [dialLastCounter] at h
        simp [applyHardwareTick, h]
      · simp only [dialLastCounter] at h h2
        simp only [applyHardwareTick, dialEncoderRotation]
        rw [if_neg h, if_pos h2]
      · simp only [dialLastCounter] at h h2
        simp only [applyHardwareTick, dialEncoderRotation]
        rw [if_neg h, if_neg (not_lt.mpr h2)]
        rfl
      · cases d2 <;>
          · simp only [applyHardwareTick, dialMouseRotation]
            split_ifs <;> rfl
      · cases d2 with
        | left => exact absurd rfl hd2
        | right =>
            constructor <;>
              · simp only [applyHardwareTick, dialEncoderRotation, dialLastCounter]
                split_ifs <;> rfl
  | right =>
      refine ⟨fun h => ?_, fun h h2 => ?_, fun h h2 => ?_, fun d2 => ?_, fun d2 hd2 => ?_⟩
      · simp only [dialLastCounter] at h
        simp [applyHardwareTick, h]
      · simp only [dialLastCounter] at h h2
        simp only [applyHardwareTick, dialEncoderRotation]
        rw [if_neg h, if_pos h2]
      · simp only [dialLastCounter] at h h2
        simp only [applyHardwareTick, dialEncoderRotation]
        rw [if_neg h, if_neg (not_lt.mpr h2)]
        rfl
      · cases d2 <;>
          · simp only [applyHardwareTick, dialMouseRotation]
            split_ifs <;> rfl
      · cases d2 with
        | right => exact absurd rfl hd2
        | left =>
            constructor <;>
              · simp only [applyHardwareTick, dialEncoderRotation, dialLastCounter]
                split_ifs <;> rfl

/-- C1 witness: on the concrete state sTick a left-dial tick from counter 5 to
counter 7 accumulates the small delta incrementally. -/
theorem hardware_tick_cases_witness :
    (7 : ℤ) ≠ dialLastCounter sTick Dial.left ∧
    |7 - dialLastCounter sTick Dial.left| ≤ 100 ∧
    dialEncoderRotation (applyHardwareTick Dial.left sTick 7) Dial.left
      = dialEncoderRotation sTick Dial.left
        + ((7 - dialLastCounter sTick Dial.left : ℤ) : ℚ) * detentGain :=
  ⟨by decide, by decide,
   (hardware_tick_cases Dial.left sTick 7).2.2.1 (by decide) (by decide)⟩

/-!
C7: resync on a new relay connection.
-/

/-- C7: the resync performed on the first message of a new relay connection
sets each dial's hardware contribution to exactly counter * 3.6 regardless of
the prior state and records the counter as the new delta baseline, so a
subsequent hardware tick reporting the same counter pair is a no-op. -/
theorem resync_idempotent (s : FrameState) (e1 e2 : ℤ) :
    dialEncoderRotation (resyncMessage s e1 e2) Dial.left = (e1 : ℚ) * detentGain ∧
    dialEncoderRotation (resyncMessage s e1 e2) Dial.right = (e2 : ℚ) * detentGain ∧
    dialLastCounter (resyncMessage s e1 e2) Dial.left = e1 ∧
    dialLastCounter (resyncMessage s e1 e2) Dial.right = e2 ∧
    applyHardwareTick Dial.left (resyncMessage s e1 e2) e1 = resyncMessage s e1 e2 ∧
    applyHardwareTick Dial.right (resyncMessage s e1 e2) e2 = resyncMessage s e1 e2 ∧
    encoderMessage (resyncMessage s e1 e2) e1 e2 = resyncMessage s e1 e2 := by
  refine ⟨rfl, rfl, rfl, rfl, ?_, ?_, ?_⟩ <;>
    simp [applyHardwareTick, encoderMessage, resyncMessage]

/-!
C8: cursor range invariant.
-/

/-- C8: after every atomic input event the selection cursor is an integer in
the inclusive range from 0 to the sentence length: negative-direction
navigation is clamped at 0, navigation past the end sets exactly the
sentence-length sentinel, and no handler leaves the range. -/
theorem cursor_invariant_preserved (s : FrameState) (h : cursorInvariant s) (e : InputEvent) :
    cursorInvariant (stepEvent s e) := by
  obtain ⟨hne, h0, hle⟩ := h
  have hpos : 0 < s.words.length := List.length_pos.mpr hne
  cases e with
  | mouseDelta d raw =>
      cases d <;> exact ⟨hne, h0, hle⟩
  | hardwareTick e1 e2 =>
      show cursorInvariant (encoderMessage s e1 e2)
      obtain ⟨hw1, hc1⟩ := applyHardwareTick_words_cursor Dial.left s e1
      obtain ⟨hw2, hc2⟩ :=
        applyHardwareTick_words_cursor Dial.right (applyHardwareTick Dial.left s e1) e2
      refine ⟨?_, ?_, ?_⟩
      · rw [encoderMessage, hw2, hw1]; exact hne
      · rw [encoderMessage, hc2, hc1]; exact h0
      · rw [encoderMessage, hc2, hc1, hw2, hw1]; exact hle
  | resyncMsg e1 e2 =>
      exact ⟨hne, h0, hle⟩
  | rightDial =>
      show cursorInvariant (rightDialStep s)
      rw [rightDialStep]
      split
      · exact ⟨hne, h0, hle⟩
      · refine ⟨hne, ?_, ?_⟩ <;> · dsimp only; split_ifs <;> omega
  | leftDial =>
      show cursorInvariant (leftDialStep s).1
      rw [leftDialStep]
      split_ifs with h1 h2
      · exact ⟨hne, h0, hle⟩
      · exact ⟨hne, h0, hle⟩
      · dsimp only
        split_ifs with h3
        · exact ⟨hne, h0, hle⟩
        · have hlen := length_le_jsArraySetZ s.words s.selectedWordIndex
            (s.currentVariations.getD ((⌊|rotation s| / 60⌋).toNat % s.currentVariations.length) "")
          refine ⟨?_, h0, ?_⟩
          · exact List.length_pos.mp (lt_of_lt_of_le hpos hlen)
          · dsimp only
            omega
  | cursorReset =>
      exact ⟨hne, h0, hle⟩
  | variationsResponse c w vs =>
      show cursorInvariant (applyVariationsResponse s c w vs)
      rw [applyVariationsResponse]
      split_ifs <;> exact ⟨hne, h0, hle⟩
  | extensionCheck =>
      show cursorInvariant (extensionTrigger s).1
      rw [extensionTrigger]
      split_ifs <;> exact ⟨hne, h0, hle⟩
  | predictSuccess vs =>
      show cursorInvariant (applyPredictSuccess s vs)
      cases vs with
      | nil => exact ⟨hne, h0, hle⟩
      | cons v rest =>
          refine ⟨?_, h0, ?_⟩
          · simp [applyPredictSuccess]
          · simp only [applyPredictSuccess, List.length_append, List.length_cons,
              List.length_nil]
            omega
  | predictFailure =>
      refine ⟨hne, ?_, ?_⟩ <;> · simp only [stepEvent, applyPredictFailure]; omega

/-- C8 witness: the invariant holds on sExt0 and is preserved by the
prediction-failure event there. -/
theorem cursor_invariant_preserved_witness :
    cursorInvariant sExt0 ∧ cursorInvariant (stepEvent sExt0 InputEvent.predictFailure) :=
  ⟨⟨by decide, by decide, by decide⟩,
   cursor_invariant_preserved sExt0 ⟨by decide, by decide, by decide⟩ .predictFailure⟩

/-!
C2: remainder preservation of the right-dial navigation.
-/

/-- Consumption with less than one whole step: nothing moves and the
baseline stays. -/
theorem navConsume_of_floor_zero (last rot : ℚ) (h : 0 ≤ rot - last)
    (hz : ⌊(rot - last) / 60⌋ = 0) :
    navConsume last rot = (0, last) := by
  rw [navConsume]
  dsimp only
  rw [abs_of_nonneg h, if_pos hz]

/-- Consumption of at least one whole forward step: the movement is the floor
of the change over 60 and the baseline advances by that many times 60. -/
theorem navConsume_of_floor_pos (last rot : ℚ) (h : 0 < rot - last)
    (hz : ⌊(rot - last) / 60⌋ ≠ 0) :
    navConsume last rot
      = (⌊(rot - last) / 60⌋, last + (⌊(rot - last) / 60⌋ : ℤ) * 60) := by
  rw [navConsume]
  dsimp only
  rw [abs_of_nonneg (le_of_lt h), if_neg hz, if_pos h]
  simp

/-- Cumulative movement of the consumption rule: starting from a baseline at
most one step behind the effective angle, with nonnegative remainder, running
nonnegative angle changes consumes exactly the floor of the accumulated
angle over 60. -/
theorem navRun_floor (ds : List ℚ) :
    ∀ rot last : ℚ, 0 ≤ rot - last → rot - last < 60 → (∀ d ∈ ds, 0 ≤ d) →
      (navRun rot last ds).1 = ⌊(rot - last + ds.sum) / 60⌋ := by
  induction ds with
  | nil =>
      intro rot last h0 h60 _
      have h : ⌊(rot - last + ([] : List ℚ).sum) / 60⌋ = 0 := by
        rw [List.sum_nil, add_zero, Int.floor_eq_zero_iff]
        refine ⟨div_nonneg h0 (by norm_num), ?_⟩
        rw [div_lt_one (by norm_num : (0 : ℚ) < 60)]
        exact h60
      rw [navRun, h]
  | cons d ds ih =>
      intro rot last h0 h60 hall
      have hd : 0 ≤ d := hall d (List.mem_cons_self d ds)
      have hall2 : ∀ x ∈ ds, 0 ≤ x := fun x hx => hall x (List.mem_cons_of_mem d hx)
      have hch0 : 0 ≤ rot + d - last := by linarith
      simp only [navRun]
      by_cases hs : ⌊(rot + d - last) / 60⌋ = 0
      · rw [navConsume_of_floor_zero last (rot + d) hch0 hs]
        dsimp only
        have hlt : rot + d - last < 60 := by
          have h1 := (Int.floor_eq_zero_iff.mp hs).2
          rw [div_lt_one (by norm_num : (0 : ℚ) < 60)] at h1
          exact h1
        rw [ih (rot + d) last hch0 hlt hall2, zero_add]
        congr 1
        rw [List.sum_cons]
        ring
      · have hpos : 0 < rot + d - last := by
          rcases lt_or_eq_of_le hch0 with h | h
          · exact h
          · exact absurd (by rw [← h]; norm_num) hs
        rw [navConsume_of_floor_pos last (rot + d) hpos hs]
        dsimp only
        set n : ℤ := ⌊(rot + d - last) / 60⌋ with hn
        have hfl : (n : ℚ) * 60 ≤ rot + d - last := by
          have h1 := Int.floor_le ((rot + d - last) / 60)
          rw [← hn] at h1
          calc (n : ℚ) * 60 ≤ ((rot + d - last) / 60) * 60 :=
                mul_le_mul_of_nonneg_right h1 (by norm_num)
            _ = rot + d - last := div_mul_cancel₀ _ (by norm_num)
        have hfu : rot + d - last < ((n : ℚ) + 1) * 60 := by
          have h1 := Int.lt_floor_add_one ((rot + d - last) / 60)
          rw [← hn] at h1
          calc rot + d - last = ((rot + d - last) / 60) * 60 :=
                (div_mul_cancel₀ _ (by norm_num)).symm
            _ < ((n : ℚ) + 1) * 60 := mul_lt_mul_of_pos_right h1 (by norm_num)
        have hrem0 : 0 ≤ (rot + d) - (last + (n : ℚ) * 60) := by linarith
        have hrem60 : (rot + d) - (last + (n : ℚ) * 60) < 60 := by linarith
        rw [ih (rot + d) (last + (n : ℚ) * 60) hrem0 hrem60 hall2]
        have harg : (rot + d) - (last + (n : ℚ) * 60) + ds.sum
            = (rot - last + (d :: ds).sum) - (n : ℚ) * 60 := by
          rw [List.sum_cons]
          ring
        rw [harg]
        have hsub : ((rot - last + (d :: ds).sum) - (n : ℚ) * 60) / 60
            = (rot - last + (d :: ds).sum) / 60 - (n : ℚ) := by
          rw [sub_div, mul_div_assoc]
          norm_num
        rw [hsub, Int.floor_sub_int]
        ring

/-- C2 counterexample: a single effective-angle change of minus 30 degrees
produces zero cursor movement under the consumption rule, while the floor of
the total angle over 60 is minus one; the claimed identity fails for
negative totals because steps are truncated toward zero. -/
theorem remainder_preservation_counterexample :
    ([(-30 : ℚ)].sum = -30) ∧
    (navRun 0 0 [(-30 : ℚ)]).1 = 0 ∧
    ⌊((-30 : ℚ)) / 60⌋ = -1 ∧
    (0 : ℤ) ≠ -1 := by
  refine ⟨by norm_num, ?_, by norm_num, by decide⟩
  simp only [navRun, navConsume]
  norm_num

/-- C2 (amended): for every sequence of nonnegative effective-angle changes
consumed by the rule steps equal to the floor of the absolute angle delta
over 60, with the baseline advanced by exactly steps times 60 times the
direction, the cumulative cursor movement equals the floor of the total
angle over 60 — in particular, the net movement is independent of how the
same total is split into individual changes. -/
theorem remainder_preservation_amended (ds : List ℚ) (h : ∀ d ∈ ds, 0 ≤ d) :
    (navRun 0 0 ds).1 = ⌊ds.sum / 60⌋ := by
  have := navRun_floor ds 0 0 (by norm_num) (by norm_num) h
  simpa using this

/-- C2 witness: ten changes of 6 degrees each produce cumulative movement
1, the floor of 60 over 60, matching one change of 60 degrees. -/
theorem remainder_preservation_amended_witness :
    (∀ d ∈ [(6 : ℚ), 6, 6, 6, 6, 6, 6, 6, 6, 6], 0 ≤ d) ∧
    (navRun 0 0 [(6 : ℚ), 6, 6, 6, 6, 6, 6, 6, 6, 6]).1
      = ⌊([(6 : ℚ), 6, 6, 6, 6, 6, 6, 6, 6, 6].sum) / 60⌋ ∧
    (navRun 0 0 [(60 : ℚ)]).1 = ⌊([(60 : ℚ)].sum) / 60⌋ :=
  ⟨by intro d hd; fin_cases hd <;> norm_num,
   remainder_preservation_amended [(6 : ℚ), 6, 6, 6, 6, 6, 6, 6, 6, 6]
     (by intro d hd; fin_cases hd <;> norm_num),
   remainder_preservation_amended [(60 : ℚ)] (by intro d hd; fin_cases hd <;> norm_num)⟩

/-!
C3: stale variant fetches.
-/

/-- C3 counterexample: on the concrete state sStale, whose cursor has moved
to 4 after a variants fetch was issued at cursor 2, the resolution of that
stale fetch does mutate the variant set and sets the fetched marker to the
originating cursor 2, so the state for cursor 4 is not left unmodified. -/
theorem stale_fetch_counterexample :
    sStale.selectedWordIndex = 4 ∧
    sStale.variationsFetchedForIndex = none ∧
    (applyVariationsResponse sStale 2 "lingering" ["waiting", "resting"]).variationsFetchedForIndex
      = some 2 ∧
    (applyVariationsResponse sStale 2 "lingering" ["waiting", "resting"]).currentVariations
      ≠ sStale.currentVariations := by
  refine ⟨rfl, rfl, ?_, ?_⟩ <;> decide

/-- C3 (amended): a stale fetch result is applied, not disregarded: resolving
a non-empty fetch issued at cursor c replaces the variant set with the
original word followed by the stale variants and sets the fetched marker to
c; because c differs from the current cursor, the next left-dial angle change
issues a fresh fetch for the current cursor instead of writing a word. -/
theorem stale_fetch_amended (s : FrameState) (c : ℤ) (w : String) (vs : List String)
    (h : vs ≠ []) :
    applyVariationsResponse s c w vs
      = { s with currentVariations := w :: vs, variationsFetchedForIndex := some c } ∧
    (c ≠ s.selectedWordIndex →
      (leftDialStep (applyVariationsResponse s c w vs)).1 = applyVariationsResponse s c w vs ∧
      (leftDialStep (applyVariationsResponse s c w vs)).2
        = some ⟨jsGetD s.words s.selectedWordIndex, joinWords s.words, s.selectedWordIndex⟩) := by
  have h1 : applyVariationsResponse s c w vs
      = { s with currentVariations := w :: vs, variationsFetchedForIndex := some c } := by
    rw [applyVariationsResponse, if_neg h]
  refine ⟨h1, fun hc => ?_⟩
  rw [h1, leftDialStep]
  rw [if_pos ?_]
  · exact ⟨rfl, rfl⟩
  · simp only [ne_eq, Option.some.injEq]
    exact hc

/-- C3 (amended) witness: the concrete stale resolution on sStale. -/
theorem stale_fetch_amended_witness :
    applyVariationsResponse sStale 2 "lingering" ["waiting", "resting"]
      = { sStale with currentVariations := ["lingering", "waiting", "resting"],
                      variationsFetchedForIndex := some 2 } ∧
    (leftDialStep (applyVariationsResponse sStale 2 "lingering" ["waiting", "resting"])).1
      = applyVariationsResponse sStale 2 "lingering" ["waiting", "resting"] := by
  have h := stale_fetch_amended sStale 2 "lingering" ["waiting", "resting"] (by decide)
  exact ⟨h.1, (h.2 (by decide)).1⟩

/-!
C4: extension round trip.
-/

/-- C4: from the three-word state sExt0 with cursor 2, a right-dial change of
plus 60 degrees sets the cursor to the sentinel 3 (the sentence length),
triggers exactly one provider call whose context is the sentence followed by
the end-of-sentence mask token, and a successful response headed by word4
makes the sentence four words with word4 at index 3, the cursor resolved at
3, the variant set replaced by the full returned list and the fetched marker
set to the old length. -/
theorem extension_round_trip :
    sExt1.selectedWordIndex = (sExt0.words.length : ℤ) ∧
    sExt1.selectedWordIndex = 3 ∧
    sExtReq = some ⟨"[PREDICT]", "word1 word2 word3 [MASK]", 3⟩ ∧
    (extensionTrigger sExt2).2 = none ∧
    sExt3.words = ["word1", "word2", "word3", "word4"] ∧
    sExt3.words.length = 4 ∧
    sExt3.selectedWordIndex = 3 ∧
    sExt3.words.get? 3 = some "word4" ∧
    sExt3.currentVariations = ["word4"] ∧
    sExt3.variationsFetchedForIndex = some 3 ∧
    sExt3.isPredicting = false := by
  refine ⟨?_, ?_, ?_, ?_, ?_, ?_, ?_, ?_, ?_, ?_, ?_⟩ <;>
  · simp only [sExt3, sExt2, sExtReq, sExt1, sExt0, rightDialStep, applyMouseDelta,
      normalizeDelta, rightRotation, cursorChangeReset, extensionTrigger,
      applyPredictSuccess, joinWords]
    try first
      | rfl
      | decide
      | (norm_num; try decide; done)

/-!
C5: extension failure recovery.
-/

/-- C5 counterexample: on the concrete in-flight state sExt2 (three words,
cursor at the sentinel 3), a provider response with an empty variant list
leaves the cursor at the sentinel 3 instead of moving it back to 2, so the
claim fails for the empty-list case. -/
theorem extension_failure_counterexample :
    (applyPredictSuccess sExt2 []).words.length = 3 ∧
    (applyPredictSuccess sExt2 []).isPredicting = false ∧
    (applyPredictSuccess sExt2 []).selectedWordIndex = 3 ∧
    (applyPredictSuccess sExt2 []).selectedWordIndex
      ≠ ((applyPredictSuccess sExt2 []).words.length : ℤ) - 1 := by
  refine ⟨?_, ?_, ?_, ?_⟩ <;>
  · simp only [sExt2, sExt1, sExt0, rightDialStep, applyMouseDelta, normalizeDelta,
      rightRotation, cursorChangeReset, extensionTrigger, applyPredictSuccess, joinWords]
    try first
      | rfl
      | decide
      | (norm_num; try decide; done)

/-- C5 (amended): a rejected prediction call leaves the sentence unchanged,
moves the cursor back to the last valid index and clears the in-flight flag;
an empty variant list leaves the sentence and the cursor unchanged (the
cursor stays at the sentinel) and clears only the in-flight flag. -/
theorem extension_failure_amended (s : FrameState) :
    (applyPredictFailure s).words = s.words ∧
    (applyPredictFailure s).selectedWordIndex = (s.words.length : ℤ) - 1 ∧
    (applyPredictFailure s).isPredicting = false ∧
    (applyPredictSuccess s []).words = s.words ∧
    (applyPredictSuccess s []).selectedWordIndex = s.selectedWordIndex ∧
    (applyPredictSuccess s []).isPredicting = false :=
  ⟨rfl, rfl, rfl, rfl, rfl, rfl⟩

/-!
C6: variant selection by the left dial.
-/

/-- C6: for a left-dial angle change after variants were fetched for the
current cursor, the variant at index floor of the absolute effective angle
over 60 modulo the variant count is written into the sentence at the cursor
position, no fetch is issued, the sentence length and the cursor are
preserved, and the write is a no-op when the selected variant already equals
the word at the cursor. -/
theorem variant_selection (s : FrameState)
    (hf : s.variationsFetchedForIndex = some s.selectedWordIndex)
    (hne : s.currentVariations ≠ [])
    (h0 : 0 ≤ s.selectedWordIndex)
    (hlt : s.selectedWordIndex < (s.words.length : ℤ)) :
    (leftDialStep s).2 = none ∧
    (leftDialStep s).1.words.get? s.selectedWordIndex.toNat
      = some (s.currentVariations.getD
          ((⌊|rotation s| / 60⌋).toNat % s.currentVariations.length) "") ∧
    (leftDialStep s).1.words.length = s.words.length ∧
    (leftDialStep s).1.selectedWordIndex = s.selectedWordIndex ∧
    (s.words.get? s.selectedWordIndex.toNat
        = some (s.currentVariations.getD
            ((⌊|rotation s| / 60⌋).toNat % s.currentVariations.length) "")
      → (leftDialStep s).1 = s) := by
  have hnat : s.selectedWordIndex.toNat < s.words.length := by omega
  have hjs : jsGet s.words s.selectedWordIndex = s.words.get? s.selectedWordIndex.toNat := by
    rw [jsGet, if_pos h0]
  rw [leftDialStep, if_neg (fun hcon => hcon hf), if_neg hne]
  dsimp only
  by_cases hw : jsGet s.words s.selectedWordIndex
      = some (s.currentVariations.getD
          ((⌊|rotation s| / 60⌋).toNat % s.currentVariations.length) "")
  · rw [if_pos hw]
    rw [hjs] at hw
    exact ⟨rfl, hw, rfl, rfl, fun _ => rfl⟩
  · rw [if_neg hw]
    rw [hjs] at hw
    have hset : jsArraySetZ s.words s.selectedWordIndex
        (s.currentVariations.getD
          ((⌊|rotation s| / 60⌋).toNat % s.currentVariations.length) "")
        = s.words.set s.selectedWordIndex.toNat
            (s.currentVariations.getD
              ((⌊|rotation s| / 60⌋).toNat % s.currentVariations.length) "") := by
      rw [jsArraySetZ, if_pos h0, jsArraySet, if_pos hnat]
    refine ⟨rfl, ?_, ?_, rfl, fun hcon => absurd hcon hw⟩
    · dsimp only
      rw [hset]
      exact List.get?_set_eq_of_lt _ hnat
    · dsimp only
      rw [hset, List.length_set]

/-- C6 witness: on sVar the effective left angle 125 selects index 2 of the
four fetched variants and writes the word they at position 0. -/
theorem variant_selection_witness :
    (leftDialStep sVar).1.words.get? 0 = some "they" ∧
    (leftDialStep sVar).2 = none := by
  have h := variant_selection sVar rfl (by decide) (by decide) (by decide)
  have hidx : (⌊|rotation sVar| / 60⌋).toNat % sVar.currentVariations.length = 2 := by
    simp only [rotation, sVar]
    norm_num
    decide
  refine ⟨?_, h.1⟩
  have h2 := h.2.1
  rw [hidx] at h2
  exact h2

/-!
C9: malformed serial lines.
-/

/-- C9: a serial line on which the tick pattern E1:<int>,E2:<int> finds no
match is discarded: the stored counter pair is unchanged, nothing is
broadcast, and the processing of the following lines continues exactly as if
the line had never arrived. -/
theorem malformed_line_discarded (s : BridgeState) (line : String) (rest : List String)
    (h : tickFrameMatch line = none) :
    handleSerialLine s line = (s, none) ∧
    processLines s (line :: rest) = processLines s rest := by
  have h1 : handleSerialLine s line = (s, none) := by
    rw [handleSerialLine, h]
  refine ⟨h1, ?_⟩
  rw [processLines, h1]

/-- C9 witness: a concrete garbled line is dropped without touching the
stored pair of counters 3 and 4. -/
theorem malformed_line_discarded_witness :
    tickFrameMatch "Dual Encoder Ready" = none ∧
    handleSerialLine ⟨3, 4⟩ "Dual Encoder Ready" = (⟨3, 4⟩, none) ∧
    processLines ⟨3, 4⟩ ["Dual Encoder Ready", "E1:9,E2:9"]
      = processLines ⟨3, 4⟩ ["E1:9,E2:9"] :=
  ⟨by decide,
   (malformed_line_discarded ⟨3, 4⟩ "Dual Encoder Ready" ["E1:9,E2:9"] (by decide)).1,
   (malformed_line_discarded ⟨3, 4⟩ "Dual Encoder Ready" ["E1:9,E2:9"] (by decide)).2⟩

/-!
C10: change check before broadcast.
-/

/-- C10: a parsed tick frame equal to the stored pair leaves the pair
unchanged and broadcasts nothing; a differing pair is stored and broadcast,
and the broadcast payload is delivered to exactly the open viewer
connections. -/
theorem change_check_broadcast (s : BridgeState) (line : String) (a b : ℤ)
    (h : tickFrameMatch line = some (a, b)) :
    (a = s.encoder1 ∧ b = s.encoder2 → handleSerialLine s line = (s, none)) ∧
    (¬(a = s.encoder1 ∧ b = s.encoder2) →
      handleSerialLine s line = (⟨a, b⟩, some (a, b))) ∧
    ((handleSerialLine s line).2 = some (a, b) ↔ ¬(a = s.encoder1 ∧ b = s.encoder2)) ∧
    (∀ (clients : List ViewerClient) (c : ViewerClient), c ∈ clients →
      ((c, (a, b)) ∈ broadcast clients (a, b) ↔ c.isOpen = true)) := by
  have hmem : ∀ (clients : List ViewerClient) (c : ViewerClient), c ∈ clients →
      ((c, (a, b)) ∈ broadcast clients (a, b) ↔ c.isOpen = true) := by
    intro clients c hc
    rw [broadcast]
    constructor
    · intro hmem2
      obtain ⟨x, hx, hxe⟩ := List.mem_map.mp hmem2
      obtain ⟨-, hopen⟩ := List.mem_filter.mp hx
      have : x = c := congrArg Prod.fst hxe
      rw [this] at hopen
      exact hopen
    · intro hopen
      exact List.mem_map.mpr ⟨c, List.mem_filter.mpr ⟨hc, hopen⟩, rfl⟩
  by_cases heq : a = s.encoder1 ∧ b = s.encoder2
  · have h1 : handleSerialLine s line = (s, none) := by
      rw [handleSerialLine, h]
      dsimp only
      rw [if_neg ?_]
      push_neg
      exact ⟨heq.1.symm, heq.2.symm⟩
    refine ⟨fun _ => h1, fun hcon => absurd heq hcon, ?_, hmem⟩
    rw [h1]
    constructor
    · intro hcon
      simp at hcon
    · intro hcon
      exact absurd heq hcon
  · have h1 : handleSerialLine s line = (⟨a, b⟩, some (a, b)) := by
      rw [handleSerialLine, h]
      dsimp only
      rw [if_pos ?_]
      by_cases h1 : a = s.encoder1
      · right
        intro hcon
        exact heq ⟨h1, hcon.symm⟩
      · left
        intro hcon
        exact h1 hcon.symm
    refine ⟨fun hcon => absurd hcon heq, fun _ => h1, ?_, hmem⟩
    rw [h1]
    constructor
    · intro _
      exact heq
    · intro _
      rfl

/-- C10 witness: the frame E1:5,E2:6 parses to the stored pair 5, 6 and is
not rebroadcast, and an open client is among the recipients of a broadcast
while a closed client is not. -/
theorem change_check_broadcast_witness :
    tickFrameMatch "E1:5,E2:6" = some (5, 6) ∧
    handleSerialLine ⟨5, 6⟩ "E1:5,E2:6" = (⟨5, 6⟩, none) ∧
    ((⟨true⟩ : ViewerClient), ((5 : ℤ), (6 : ℤ))) ∈ broadcast [⟨true⟩, ⟨false⟩] (5, 6) :=
  ⟨by decide,
   (change_check_broadcast ⟨5, 6⟩ "E1:5,E2:6" 5 6 (by decide)).1 ⟨rfl, rfl⟩,
   ((change_check_broadcast ⟨5, 6⟩ "E1:5,E2:6" 5 6 (by decide)).2.2.2
      [⟨true⟩, ⟨false⟩] ⟨true⟩ (by decide)).mpr rfl⟩

end MotionTyping
